import Mathlib

/-!
Verification of the session/cache lifecycle manager of the
`linera-react-client` repository against its natural-language
specification.

The development shallowly embeds `LineraClientManager`
(`src/lib/linera/client-manager.ts`) and `TemporarySigner.sign`
(`src/lib/linera/temporary-signer.ts`) as executable Lean functions.

Modelling conventions:
- Engine-side objects (WASM module, faucet, wallets, clients, chains,
  applications, autosigners) are opaque handles, represented as `Nat`
  tokens allocated from a counter threaded through the state.
- Every fallible engine call (dynamic import, `init()`, `new Faucet`,
  `createWallet`, `claimChain`, `new Client`, `client.chain`, `addOwner`,
  `setOwner`, `chain.application`) consumes one `StepRes` from an
  environment script, which decides whether that call succeeds (and, for
  calls returning a string such as `claimChain`, which string it returns).
  An exhausted script defaults to success with payload `""`.
- JavaScript `Map` semantics are modelled by association lists in
  insertion order: `set` of a fresh key appends, `keys().next().value`
  is the head key, `delete` of the head drops it.
- Side effects observable by the outside world are recorded as an event
  list: `claim` (a faucet chain claim), `free` (an engine handle
  release), and `notify` (a state-change notification).  A `notify`
  event carries the full manager state at the instant the listeners run,
  which is exactly what a subscriber callback can observe by calling
  back into the manager synchronously; the listener set notified is the
  `stateListeners` field of that snapshot.
-/

namespace LineraReact

/-- Client mode, from `ClientMode` in `types.ts`. -/
inductive ClientMode
  | UNINITIALIZED
  | READ_ONLY
  | FULL
deriving DecidableEq, Repr

/-- An external signer: `sid` models JavaScript object identity
(reference equality), `addr` is the address string the signer resolves. -/
structure Signer where
  sid : Nat
  addr : String
deriving DecidableEq, Repr

/-- Outcome of one fallible engine call, scripted by the environment. -/
inductive StepRes
  | ok (v : String)
  | fail (msg : String)
deriving DecidableEq, Repr

/-- Pop the next scripted outcome; an exhausted script succeeds with `""`. -/
def takeStep : List StepRes → StepRes × List StepRes
  | [] => (StepRes.ok "", [])
  | r :: rest => (r, rest)

/-- JavaScript `toLowerCase()`, as a structurally recursive map over the
character list (the library `String.toLower` does not reduce in the
kernel). -/
def strLower (s : String) : String :=
  String.mk (s.data.map Char.toLower)

/-- JavaScript `trim()`: drop whitespace from both ends, structurally. -/
def strTrim (s : String) : String :=
  String.mk
    (((s.data.dropWhile Char.isWhitespace).reverse.dropWhile
        Char.isWhitespace).reverse)

/-- The composite application handle built by `getApplication`
(`ApplicationClientImpl` constructor arguments). -/
structure AppClient where
  appId : String
  publicApp : Nat
  walletApp : Option Nat
  canWrite : Bool
  faucetUrl : String
  publicChainId : String
  walletChainId : Option String
  walletAddress : Option String
  publicAddress : Option String
deriving DecidableEq, Repr

/-- The mutable fields of `LineraClientManager`, in declaration order. -/
structure MgrState where
  publicClient : Option Nat
  publicWallet : Option Nat
  publicAutosigner : Option Nat
  publicChainId : Option String
  publicAddress : Option String
  walletClient : Option Nat
  walletWallet : Option Nat
  walletSigner : Option Signer
  walletAutosigner : Option Nat
  walletChainId : Option String
  walletAddress : Option String
  mode : ClientMode
  faucetUrl : String
  stateListeners : List Nat
  lineraModule : Option Nat
  faucet : Option Nat
  chainCache : List (String × Nat)
  appCache : List (String × AppClient)
  cachedWalletChain : Option Nat
  nextHandle : Nat
deriving DecidableEq, Repr

/-- Cache capacity, `MAX_CACHED_CHAINS` in the source. -/
def MAX_CACHED_CHAINS : Nat := 10

/-- The state of a freshly constructed manager. -/
def initialState (url : String) : MgrState :=
  { publicClient := none
    publicWallet := none
    publicAutosigner := none
    publicChainId := none
    publicAddress := none
    walletClient := none
    walletWallet := none
    walletSigner := none
    walletAutosigner := none
    walletChainId := none
    walletAddress := none
    mode := ClientMode.UNINITIALIZED
    faucetUrl := url
    stateListeners := []
    lineraModule := none
    faucet := none
    chainCache := []
    appCache := []
    cachedWalletChain := none
    nextHandle := 0 }

/-- Observable side effects of an operation, in order of occurrence. -/
inductive Event
  | notify (st : MgrState) (err : Option String)
  | claim (owner : String) (chainId : String)
  | free (h : Nat)
deriving DecidableEq, Repr

deriving instance DecidableEq for Except

/-- Result of running one manager operation: the returned value or thrown
error, the post-state, the emitted events, and the unconsumed script. -/
structure Res (α : Type) where
  result : Except String α
  state : MgrState
  events : List Event
  env : List StepRes
deriving DecidableEq, Repr

/-- Free events for an optional handle (a guarded `x.free()` call). -/
def freeOpt : Option Nat → List Event
  | some h => [Event.free h]
  | none => []

/-- JavaScript `x || undefined` applied to a nullable string field. -/
def orUndefined : Option String → Option String
  | some s => if s = "" then none else some s
  | none => none

/-- The snapshot type returned by `getState()` (`ClientState` in
`types.ts`). -/
structure ClientState where
  mode : ClientMode
  isInitialized : Bool
  hasWallet : Bool
  walletAddress : Option String
  publicAddress : Option String
  publicChainId : Option String
  walletChainId : Option String
  faucetUrl : String
deriving DecidableEq, Repr

/-- Embedding of `LineraClientManager.getState`. -/
def getState (s : MgrState) : ClientState :=
  { mode := s.mode
    isInitialized := decide (s.mode ≠ ClientMode.UNINITIALIZED)
    hasWallet := decide (s.mode = ClientMode.FULL)
    walletAddress := orUndefined s.walletAddress
    publicAddress := orUndefined s.publicAddress
    publicChainId := orUndefined s.publicChainId
    walletChainId := orUndefined s.walletChainId
    faucetUrl := s.faucetUrl }

/-- Lookup in an insertion-ordered association list (`Map.get`). -/
def cacheGet {α : Type} (cache : List (String × α)) (k : String) : Option α :=
  (cache.find? (fun p => p.1 == k)).map (fun p => p.2)

/-- Embedding of `LineraClientManager.evictOldestChain`: take the first
inserted key and delete it.  Note the source guards with a truthiness
test `if (firstKey)`, so an empty map, and also a first key equal to the
empty string, lead to no eviction at all. -/
def evictOldestChain (cache : List (String × Nat)) : List (String × Nat) :=
  match cache with
  | [] => cache
  | (k, _) :: rest => if k = "" then cache else rest

/-- Embedding of `LineraClientManager.invalidateAppCache`: clear the
application cache and drop the cached wallet chain handle. -/
def invalidateAppCache (s : MgrState) : MgrState :=
  { s with appCache := [], cachedWalletChain := none }

/-- Embedding of `LineraClientManager.clearAllCaches`. -/
def clearAllCaches (s : MgrState) : MgrState :=
  { s with chainCache := [], appCache := [], cachedWalletChain := none }

/-- Catch block of `initializeReadOnly`: reset mode to UNINITIALIZED,
notify with the error attached, and rethrow wrapped. -/
def initCatch (s : MgrState) (env : List StepRes) (evs : List Event)
    (m : String) : Res Unit :=
  let s1 := { s with mode := ClientMode.UNINITIALIZED }
  { result := Except.error ("Failed to initialize read-only client: " ++ m)
    state := s1
    events := evs ++ [Event.notify s1 (some m)]
    env := env }

/-- Embedding of `LineraClientManager.initializeReadOnly`.  Engine steps
consumed in source order: module import, `init()`, `new Faucet`,
`createWallet`, temporary-signer address (payload is the public
address), `claimChain` (payload is the public chain id), `new Client`,
`client.chain`, `chain.addOwner`, `wallet.setOwner`. -/
def initReadOnly (s : MgrState) (env : List StepRes) : Res Unit :=
  if s.mode ≠ ClientMode.UNINITIALIZED then
    { result := Except.ok (), state := s, events := [], env := env }
  else
    match takeStep env with
    | (StepRes.fail m, env) => initCatch s env [] m
    | (StepRes.ok _, env) =>
    let s := { s with lineraModule := some s.nextHandle,
                      nextHandle := s.nextHandle + 1 }
    match takeStep env with
    | (StepRes.fail m, env) => initCatch s env [] m
    | (StepRes.ok _, env) =>
    match takeStep env with
    | (StepRes.fail m, env) => initCatch s env [] m
    | (StepRes.ok _, env) =>
    let s := { s with faucet := some s.nextHandle,
                      nextHandle := s.nextHandle + 1 }
    match takeStep env with
    | (StepRes.fail m, env) => initCatch s env [] m
    | (StepRes.ok _, env) =>
    let s := { s with publicWallet := some s.nextHandle,
                      nextHandle := s.nextHandle + 1 }
    match takeStep env with
    | (StepRes.fail m, env) => initCatch s env [] m
    | (StepRes.ok owner, env) =>
    let s := { s with publicAddress := some owner }
    let s := { s with publicAutosigner := some s.nextHandle,
                      nextHandle := s.nextHandle + 1 }
    match takeStep env with
    | (StepRes.fail m, env) => initCatch s env [] m
    | (StepRes.ok cid, env) =>
    let s := { s with publicChainId := some cid }
    let evs := [Event.claim owner cid]
    match takeStep env with
    | (StepRes.fail m, env) => initCatch s env evs m
    | (StepRes.ok _, env) =>
    let s := { s with publicClient := some s.nextHandle,
                      nextHandle := s.nextHandle + 1 }
    match takeStep env with
    | (StepRes.fail m, env) => initCatch s env evs m
    | (StepRes.ok _, env) =>
    match takeStep env with
    | (StepRes.fail m, env) => initCatch s env evs m
    | (StepRes.ok _, env) =>
    match takeStep env with
    | (StepRes.fail m, env) => initCatch s env evs m
    | (StepRes.ok _, env) =>
    let s := { s with mode := ClientMode.READ_ONLY }
    { result := Except.ok ()
      state := s
      events := evs ++ [Event.notify s none]
      env := env }

/-- Catch block of `connectWallet`: notify with the error attached (mode
is left unchanged) and rethrow wrapped. -/
def connCatch (s : MgrState) (env : List StepRes) (evs : List Event)
    (m : String) : Res Unit :=
  { result := Except.error ("Failed to connect wallet: " ++ m)
    state := s
    events := evs ++ [Event.notify s (some m)]
    env := env }

/-- The same-wallet test of `connectWallet`:
`walletAddress?.toLowerCase() === owner.toLowerCase()` conjoined with
the truthiness of `this.walletChainId` — a string, truthy only when it
is non-null AND nonempty — and of `this.walletClient` — an object,
truthy exactly when non-null. -/
def connSameCheck (s : MgrState) (g : Signer) : Bool :=
  (match s.walletAddress with
   | some a => strLower a == strLower g.addr
   | none => false)
  && (match s.walletChainId with
      | some cid => cid != ""
      | none => false)
  && s.walletClient.isSome

/-- New-wallet tail of `connectWallet`, after the old wallet resources
have been cleaned up and the faucet ensured.  Engine steps in source
order: `createWallet`, `claimChain` (payload is the wallet chain id),
`new Client`, `client.chain`, `chain.addOwner`, `wallet.setOwner`. -/
def connSteps (s : MgrState) (g : Signer) (owner : String)
    (evs : List Event) (env : List StepRes) : Res Unit :=
  match takeStep env with
  | (StepRes.fail m, env) => connCatch s env evs m
  | (StepRes.ok _, env) =>
  let s := { s with walletWallet := some s.nextHandle,
                    nextHandle := s.nextHandle + 1 }
  match takeStep env with
  | (StepRes.fail m, env) => connCatch s env evs m
  | (StepRes.ok cid, env) =>
  let s := { s with walletChainId := some cid }
  let evs := evs ++ [Event.claim owner cid]
  let s := { s with walletSigner := some g, walletAddress := some owner }
  let s := { s with walletAutosigner := some s.nextHandle,
                    nextHandle := s.nextHandle + 1 }
  match takeStep env with
  | (StepRes.fail m, env) => connCatch s env evs m
  | (StepRes.ok _, env) =>
  let s := { s with walletClient := some s.nextHandle,
                    nextHandle := s.nextHandle + 1 }
  match takeStep env with
  | (StepRes.fail m, env) => connCatch s env evs m
  | (StepRes.ok _, env) =>
  match takeStep env with
  | (StepRes.fail m, env) => connCatch s env evs m
  | (StepRes.ok _, env) =>
  match takeStep env with
  | (StepRes.fail m, env) => connCatch s env evs m
  | (StepRes.ok _, env) =>
  let s := invalidateAppCache s
  let s := { s with mode := ClientMode.FULL }
  { result := Except.ok ()
    state := s
    events := evs ++ [Event.notify s none]
    env := env }

/-- Body of `connectWallet` once initialization is ensured: same-wallet
reconnection short-circuit, otherwise cleanup of the old wallet
resources, faucet recreation if absent, and the new-wallet tail. -/
def connBody (s0 : MgrState) (g : Signer) (evs0 : List Event)
    (env : List StepRes) : Res Unit :=
  let owner := g.addr
  if connSameCheck s0 g then
    if s0.walletSigner ≠ some g then
      let s := { s0 with walletSigner := some g, mode := ClientMode.FULL }
      { result := Except.ok (), state := s
        events := evs0 ++ [Event.notify s none], env := env }
    else
      { result := Except.ok (), state := s0, events := evs0, env := env }
  else
    let evs := evs0 ++ freeOpt s0.walletClient ++ freeOpt s0.walletWallet
    let s := { s0 with walletClient := none, walletWallet := none }
    match s.lineraModule with
    | none => connCatch s env evs "Cannot destructure linera module"
    | some _ =>
      match s.faucet with
      | some _ => connSteps s g owner evs env
      | none =>
        match takeStep env with
        | (StepRes.fail m, env) => connCatch s env evs m
        | (StepRes.ok _, env) =>
        match takeStep env with
        | (StepRes.fail m, env) => connCatch s env evs m
        | (StepRes.ok _, env) =>
        connSteps
          { s with faucet := some s.nextHandle,
                   nextHandle := s.nextHandle + 1 } g owner evs env

/-- Embedding of `LineraClientManager.connectWallet`.  If uninitialized,
`initializeReadOnly` runs first inside the try block, so its failure is
notified a second time and rethrown with the connect wrapping. -/
def connectWallet (s : MgrState) (g : Signer) (env : List StepRes) : Res Unit :=
  if s.mode = ClientMode.UNINITIALIZED then
    let r := initReadOnly s env
    match r.result with
    | Except.error m =>
      { result := Except.error ("Failed to connect wallet: " ++ m)
        state := r.state
        events := r.events ++ [Event.notify r.state (some m)]
        env := r.env }
    | Except.ok _ => connBody r.state g r.events r.env
  else
    connBody s g [] env

/-- Embedding of `LineraClientManager.switchWallet`, an alias for
`connectWallet`. -/
def switchWallet (s : MgrState) (g : Signer) (env : List StepRes) : Res Unit :=
  connectWallet s g env

/-- Embedding of `LineraClientManager.disconnectWallet`. -/
def disconnectWallet (s : MgrState) (env : List StepRes) : Res Unit :=
  if s.mode ≠ ClientMode.FULL then
    { result := Except.ok (), state := s, events := [], env := env }
  else
    let evs := freeOpt s.walletClient ++ freeOpt s.walletWallet
    let s := { s with walletClient := none, walletWallet := none,
                      walletSigner := none, walletAutosigner := none,
                      walletChainId := none, walletAddress := none }
    let s := invalidateAppCache s
    let s := { s with mode := ClientMode.READ_ONLY }
    { result := Except.ok (), state := s
      events := evs ++ [Event.notify s none], env := env }

/-- Embedding of `LineraClientManager.getChain`: cache hit returns the
stored handle, a miss creates the chain through the public client (one
engine step), evicting the oldest entry first when the cache is full. -/
def getChain (s : MgrState) (chainId : String) (env : List StepRes) : Res Nat :=
  match s.publicClient with
  | none =>
    { result := Except.error
        "Public client not initialized. Call initializeReadOnly() first."
      state := s, events := [], env := env }
  | some _ =>
    match cacheGet s.chainCache chainId with
    | some h => { result := Except.ok h, state := s, events := [], env := env }
    | none =>
      match takeStep env with
      | (StepRes.fail m, env) =>
        { result := Except.error m, state := s, events := [], env := env }
      | (StepRes.ok _, env) =>
        let h := s.nextHandle
        let s := { s with nextHandle := s.nextHandle + 1 }
        let cache :=
          if MAX_CACHED_CHAINS ≤ s.chainCache.length then
            evictOldestChain s.chainCache
          else s.chainCache
        let s := { s with chainCache := cache ++ [(chainId, h)] }
        { result := Except.ok h, state := s, events := [], env := env }

/-- Embedding of `LineraClientManager.getWalletChain`: a dedicated
single-slot cache (`cachedWalletChain`), separate from `chainCache`. -/
def getWalletChain (s : MgrState) (env : List StepRes) : Res Nat :=
  if s.walletClient = none ∨ s.walletChainId = none then
    { result := Except.error
        "Wallet client not initialized. Connect wallet first."
      state := s, events := [], env := env }
  else
    match s.cachedWalletChain with
    | some h => { result := Except.ok h, state := s, events := [], env := env }
    | none =>
      match takeStep env with
      | (StepRes.fail m, env) =>
        { result := Except.error m, state := s, events := [], env := env }
      | (StepRes.ok _, env) =>
        let h := s.nextHandle
        let s := { s with nextHandle := s.nextHandle + 1 }
        { result := Except.ok h
          state := { s with cachedWalletChain := some h }
          events := [], env := env }

/-- Embedding of `LineraClientManager.getApplication`.  Empty and
whitespace-only ids, a missing public client, and any engine failure
inside the try block all return `null` (never a thrown error); a cache
miss builds the dual handle and stores it. -/
def getApplication (s : MgrState) (appId : String) (env : List StepRes) :
    Res (Option AppClient) :=
  if strTrim appId = "" then
    { result := Except.ok none, state := s, events := [], env := env }
  else
    match s.publicClient with
    | none => { result := Except.ok none, state := s, events := [], env := env }
    | some _ =>
      match cacheGet s.appCache appId with
      | some c =>
        { result := Except.ok (some c), state := s, events := [], env := env }
      | none =>
        match s.publicChainId with
        | none =>
          { result := Except.ok none, state := s, events := [], env := env }
        | some pcid =>
          let r := getChain s pcid env
          match r.result with
          | Except.error _ =>
            { result := Except.ok none, state := r.state
              events := r.events, env := r.env }
          | Except.ok _ =>
            match takeStep r.env with
            | (StepRes.fail _, env) =>
              { result := Except.ok none, state := r.state
                events := r.events, env := env }
            | (StepRes.ok _, env) =>
              let s := r.state
              let pubApp := s.nextHandle
              let s := { s with nextHandle := s.nextHandle + 1 }
              match s.walletClient, s.walletChainId with
              | some _, some _ =>
                let rw := getWalletChain s env
                (match rw.result with
                 | Except.error _ =>
                   { result := Except.ok none, state := rw.state
                     events := rw.events, env := rw.env }
                 | Except.ok _ =>
                   match takeStep rw.env with
                   | (StepRes.fail _, env) =>
                     { result := Except.ok none, state := rw.state
                       events := rw.events, env := env }
                   | (StepRes.ok _, env) =>
                     let s := rw.state
                     let wApp := s.nextHandle
                     let s := { s with nextHandle := s.nextHandle + 1 }
                     let app : AppClient :=
                       { appId := appId
                         publicApp := pubApp
                         walletApp := some wApp
                         canWrite := decide (s.mode = ClientMode.FULL)
                         faucetUrl := s.faucetUrl
                         publicChainId := pcid
                         walletChainId := orUndefined s.walletChainId
                         walletAddress := orUndefined s.walletAddress
                         publicAddress := orUndefined s.publicAddress }
                     let s := { s with appCache := s.appCache ++ [(appId, app)] }
                     { result := Except.ok (some app), state := s
                       events := [], env := env })
              | _, _ =>
                let app : AppClient :=
                  { appId := appId
                    publicApp := pubApp
                    walletApp := none
                    canWrite := decide (s.mode = ClientMode.FULL)
                    faucetUrl := s.faucetUrl
                    publicChainId := pcid
                    walletChainId := orUndefined s.walletChainId
                    walletAddress := orUndefined s.walletAddress
                    publicAddress := orUndefined s.publicAddress }
                let s := { s with appCache := s.appCache ++ [(appId, app)] }
                { result := Except.ok (some app), state := s
                  events := [], env := env }

/-- Embedding of `LineraClientManager.destroy`: clear all caches, free
both contexts, null every field, reset the mode, clear the listener set,
and only then notify. -/
def destroy (s : MgrState) (env : List StepRes) : Res Unit :=
  let s1 := clearAllCaches s
  let evs := freeOpt s1.publicClient ++ freeOpt s1.publicWallet
             ++ freeOpt s1.walletClient ++ freeOpt s1.walletWallet
  let s2 := { s1 with publicClient := none, publicWallet := none,
                      publicAutosigner := none, publicChainId := none,
                      publicAddress := none,
                      walletClient := none, walletWallet := none,
                      walletSigner := none, walletAutosigner := none,
                      walletChainId := none, walletAddress := none,
                      mode := ClientMode.UNINITIALIZED,
                      stateListeners := [] }
  { result := Except.ok (), state := s2
    events := evs ++ [Event.notify s2 none], env := env }

/-- Embedding of `LineraClientManager.onStateChange`: add the callback
to the listener set. -/
def onStateChange (s : MgrState) (l : Nat) : MgrState :=
  if l ∈ s.stateListeners then s
  else { s with stateListeners := s.stateListeners ++ [l] }

/-- Listeners a single event delivers a state snapshot to. -/
def notifiedTo : Event → List Nat
  | Event.notify st _ => st.stateListeners
  | _ => []

/-- State snapshots carried by the notification events of a trace. -/
def notifyStatesOf (evs : List Event) : List MgrState :=
  evs.filterMap (fun e => match e with
    | Event.notify st _ => some st
    | _ => none)

/-- Claim events of a trace. -/
def claimsOf (evs : List Event) : List Event :=
  evs.filter (fun e => match e with
    | Event.claim _ _ => true
    | _ => false)

/-- Free events of a trace. -/
def freesOf (evs : List Event) : List Event :=
  evs.filter (fun e => match e with
    | Event.free _ => true
    | _ => false)

/-- Hex rendering of one byte, `b.toString(16).padStart(2, "0")` in
`uint8ArrayToHex` of `temporary-signer.ts`. -/
def byteHex (b : Nat) : String :=
  (if b % 256 < 16 then "0" else "") ++ String.mk (Nat.toDigits 16 (b % 256))

/-- Embedding of `uint8ArrayToHex` from `temporary-signer.ts`. -/
def uint8ArrayToHex (bytes : List Nat) : String :=
  String.join (bytes.map byteHex)

/-- The `TemporarySigner` once constructed: all that `sign`,
`containsKey` and `address` consult is the underlying wallet address. -/
structure TempSigner where
  address : String
deriving DecidableEq, Repr

/-- Embedding of `TemporarySigner.sign`: the owner is compared to the
wallet address after lower-casing both sides; on a match the message is
hex-encoded and handed to the underlying ethers wallet, whose outcome
(the produced signature, or a wrapped failure) is scripted by `res`. -/
def tempSign (w : TempSigner) (owner : String) (value : List Nat)
    (res : StepRes) : Except String String :=
  if strLower owner ≠ strLower w.address then
    Except.error ("Owner mismatch: expected " ++ w.address ++ ", got " ++ owner)
  else
    let _msgHex := "0x" ++ uint8ArrayToHex value
    match res with
    | StepRes.ok sig => Except.ok sig
    | StepRes.fail m => Except.error ("Temporary signer failed: " ++ m)

/-- Embedding of `TemporarySigner.containsKey`. -/
def tempContainsKey (w : TempSigner) (owner : String) : Bool :=
  strLower owner == strLower w.address

/-- One wallet-lifecycle operation, for quantifying over call sequences
of `connectWallet` / `disconnectWallet` / `switchWallet`. -/
inductive WOp
  | conn (g : Signer) (env : List StepRes)
  | disc
  | sw (g : Signer) (env : List StepRes)

/-- Run one wallet-lifecycle operation. -/
def runWOp (s : MgrState) : WOp → MgrState
  | WOp.conn g env => (connectWallet s g env).state
  | WOp.disc => (disconnectWallet s []).state
  | WOp.sw g env => (switchWallet s g env).state

/-- Run a sequence of wallet-lifecycle operations. -/
def runWOps (s : MgrState) : List WOp → MgrState
  | [] => s
  | o :: rest => runWOps (runWOp s o) rest

/-- Run a sequence of `getChain` requests, threading the environment
script through. -/
def runGetChains (s : MgrState) (env : List StepRes) : List String → MgrState
  | [] => s
  | i :: rest =>
    runGetChains (getChain s i env).state (getChain s i env).env rest

/-- States reachable from a fresh manager by sequences of the public
operations in which every operation completes without throwing
(`disconnectWallet`, `getApplication` and `destroy` never throw). -/
inductive SuccessReachable : MgrState → Prop
  | start (url : String) : SuccessReachable (initialState url)
  | initRO (s : MgrState) (env : List StepRes) :
      SuccessReachable s → (initReadOnly s env).result = Except.ok () →
      SuccessReachable (initReadOnly s env).state
  | conn (s : MgrState) (g : Signer) (env : List StepRes) :
      SuccessReachable s → (connectWallet s g env).result = Except.ok () →
      SuccessReachable (connectWallet s g env).state
  | sw (s : MgrState) (g : Signer) (env : List StepRes) :
      SuccessReachable s → (switchWallet s g env).result = Except.ok () →
      SuccessReachable (switchWallet s g env).state
  | disc (s : MgrState) (env : List StepRes) :
      SuccessReachable s → SuccessReachable (disconnectWallet s env).state
  | getApp (s : MgrState) (a : String) (env : List StepRes) :
      SuccessReachable s → SuccessReachable (getApplication s a env).state
  | dest (s : MgrState) (env : List StepRes) :
      SuccessReachable s → SuccessReachable (destroy s env).state

/-- The session invariant claimed by the spec: a non-null wallet context
forces FULL mode, a null public context forces UNINITIALIZED mode. -/
def SessionInv (s : MgrState) : Prop :=
  (s.publicClient = none → s.mode = ClientMode.UNINITIALIZED)
  ∧ ((s.walletClient ≠ none ∨ s.walletChainId ≠ none) →
      s.mode = ClientMode.FULL)

instance (s : MgrState) : Decidable (SessionInv s) := by
  unfold SessionInv
  infer_instance

/-- Modelled from the spec: `reinit()` is declared in the
`ILineraClientManager` interface but has no implementation under `src/`;
this definition follows §4.6 of the spec.  Step 2 (best-effort
`destroy()`) consumes one scripted outcome: on success the embedded
`destroy` runs; on a swallowed failure only step 3 (force-null all
internal references) applies, modelled as the same field resets without
the release events.  Step 4 and 5 (engine reload, init bootstrap, and
`initializeReadOnly`) are exactly the embedded `initReadOnly`, whose
first two steps are the module reload and the init bootstrap; its
failure is surfaced as the error of `reinit` (standing for the
last-resort environment reload).  Step 6 reconnects the snapshotted
signer through the embedded `connectWallet`; its failure is swallowed,
leaving only the error notification that `connectWallet` itself emitted. -/
def reinit (s : MgrState) (env : List StepRes) : Res Unit :=
  let snap := if s.mode = ClientMode.FULL then s.walletSigner else none
  let d := (takeStep env).1
  let env1 := (takeStep env).2
  let evs1 :=
    match d with
    | StepRes.ok _ => (destroy s env1).events
    | StepRes.fail _ => []
  let s1 := (destroy s env1).state
  let r2 := initReadOnly s1 env1
  match r2.result with
  | Except.error m =>
    { result := Except.error ("reinit failed: " ++ m)
      state := r2.state, events := evs1 ++ r2.events, env := r2.env }
  | Except.ok _ =>
    match snap with
    | none =>
      { result := Except.ok ()
        state := r2.state, events := evs1 ++ r2.events, env := r2.env }
    | some g =>
      let r3 := connectWallet r2.state g r2.env
      { result := Except.ok ()
        state := r3.state, events := evs1 ++ r2.events ++ r3.events
        env := r3.env }

/-- Shorthand for a succeeding engine step. -/
def okS (v : String) : StepRes := StepRes.ok v

/-- Script under which `initReadOnly` fully succeeds: the public address
resolves to `0xPubAddr` and the faucet assigns chain `CHAINP`. -/
def envInitOk : List StepRes :=
  [okS "m", okS "", okS "", okS "", okS "0xPubAddr", okS "CHAINP",
   okS "", okS "", okS "", okS ""]

/-- Concrete READ_ONLY state reached by a successful initialization. -/
def stReadOnly : MgrState :=
  (initReadOnly (initialState "http://localhost:8080") envInitOk).state

/-- An external signer object. -/
def sigA : Signer := { sid := 1, addr := "0xAbCd" }

/-- A distinct signer object whose address equals `sigA.addr` up to
letter case. -/
def sigA2 : Signer := { sid := 2, addr := "0xABCD" }

/-- Script under which `connectWallet` fully succeeds with wallet chain
`CHAINW`. -/
def envConnOk : List StepRes :=
  [okS "", okS "CHAINW", okS "", okS "", okS "", okS ""]

/-- Concrete FULL state reached by connecting `sigA`. -/
def stFull : MgrState := (connectWallet stReadOnly sigA envConnOk).state

/-- Concrete FULL state holding one `ApplicationCache` entry for
`app1`. -/
def stFullApp : MgrState :=
  (getApplication stFull "app1" [okS "", okS "", okS "", okS ""]).state

/-- Concrete FULL state whose `chainCache` also holds the wallet chain
id, via a `getChain` request. -/
def stFullChainW : MgrState := (getChain stFull "CHAINW" [okS ""]).state

/-- Ten distinct nonempty chain ids, none of them the public chain. -/
def chainList10 : List String :=
  ["c1", "c2", "c3", "c4", "c5", "c6", "c7", "c8", "c9", "c10"]

/-- Script of eleven succeeding chain creations. -/
def env11 : List StepRes := List.replicate 11 (okS "")

/-- Concrete state reached when `connectWallet` fails at the wallet
client construction step, after the wallet chain claim succeeded. -/
def stBadConn : MgrState :=
  (connectWallet stReadOnly sigA
    [okS "", okS "CHAINW", StepRes.fail "boom"]).state

/-- A checksummed ethers address; its lower-casing is a different
string. -/
def csAddr : String := "0x8ba1f109551bD432803012645Ac136ddd64DBA72"

/- ============================================================
   Theorems
   ============================================================ -/

theorem freeOpt_bind_notifiedTo (x : Option Nat) :
    (freeOpt x).flatMap notifiedTo = [] := by
  cases x <;> rfl

/-- C10: destroy() clears the subscriber set before emitting its
state-change notification: every notification event of destroy() is
delivered to the (empty) listener set of the destroyed state, so no
callback registered beforehand is invoked during destroy(), and the
transition to UNINITIALIZED is only visible by polling getState(). -/
theorem C10_destroy_notifies_no_subscriber :
    ∀ (s : MgrState) (env : List StepRes),
      ((destroy s env).events.flatMap notifiedTo) = []
      ∧ (destroy s env).state.stateListeners = []
      ∧ (destroy s env).state.mode = ClientMode.UNINITIALIZED
      ∧ Event.notify (destroy s env).state none ∈ (destroy s env).events := by
  intro s env
  refine ⟨?_, ?_, ?_, ?_⟩
  · simp [destroy, List.flatMap_append, freeOpt_bind_notifiedTo, notifiedTo]
  · rfl
  · rfl
  · simp [destroy]

/-- C7 counterexample: on a fully initialized manager, `getApplication`
with a whitespace-only application id returns a plain `null` result, it
does not raise an error; no event is emitted, and the (failing) engine
script is left untouched, so no engine call was even attempted. -/
theorem C7_empty_app_id_returns_null_cex :
    (getApplication stReadOnly "  " [StepRes.fail "network"]).result
        = Except.ok none
    ∧ (getApplication stReadOnly "  " [StepRes.fail "network"]).events = []
    ∧ (getApplication stReadOnly "  " [StepRes.fail "network"]).env
        = [StepRes.fail "network"]
    ∧ stReadOnly.mode = ClientMode.READ_ONLY := by
  decide

/-- C7 amended: calling getApplication with an empty or whitespace-only
application identifier returns null immediately and synchronously —
before any network or engine activity, with no state change and no
notification — rather than raising a configuration error. -/
theorem C7_empty_app_id_amended :
    ∀ (s : MgrState) (appId : String) (env : List StepRes),
      strTrim appId = "" →
      getApplication s appId env
        = { result := Except.ok none, state := s, events := [], env := env } := by
  intro s appId env h
  unfold getApplication
  rw [if_pos h]

/-- C7 witness. -/
theorem C7_empty_app_id_amended_witness :
    getApplication stReadOnly "" []
      = { result := Except.ok none, state := stReadOnly
          events := [], env := [] } :=
  C7_empty_app_id_amended stReadOnly "" [] (by decide)

/-- C9 counterexample: the owner check of `TemporarySigner.sign` is
case-insensitive, not exact: the lower-cased form of a checksummed
address is a different string from the signer address, yet `sign`
proceeds and produces the signature instead of failing with an owner
mismatch. -/
theorem C9_case_variant_owner_signs_cex :
    strLower csAddr ≠ csAddr
    ∧ tempSign { address := csAddr } (strLower csAddr) [1, 2]
        (StepRes.ok "0xsig") = Except.ok "0xsig" := by
  constructor
  · decide
  · decide

/-- C9 amended: for every owner string that does not case-insensitively
equal the strategy address, sign fails with an owner-mismatch error; for
every owner case-insensitively equal to it, sign proceeds to the
underlying wallet and returns the produced signature. -/
theorem C9_owner_mismatch_amended :
    ∀ (w : TempSigner) (owner : String) (value : List Nat) (res : StepRes),
      (strLower owner ≠ strLower w.address →
        tempSign w owner value res
          = Except.error
              ("Owner mismatch: expected " ++ w.address ++ ", got " ++ owner))
      ∧ (strLower owner = strLower w.address →
          ∀ v : String, res = StepRes.ok v →
            tempSign w owner value res = Except.ok v) := by
  intro w owner value res
  constructor
  · intro h
    unfold tempSign
    rw [if_pos h]
  · intro h v hv
    unfold tempSign
    rw [if_neg (by simp [h]), hv]

/-- C9 witness. -/
theorem C9_owner_mismatch_amended_witness :
    tempSign { address := "0xAb" } "0xCd" [] (okS "s")
        = Except.error "Owner mismatch: expected 0xAb, got 0xCd"
    ∧ tempSign { address := "0xAb" } "0xab" [] (okS "s") = Except.ok "s" :=
  ⟨by
    have h := (C9_owner_mismatch_amended { address := "0xAb" } "0xCd" []
      (okS "s")).1 (by decide)
    simpa using h,
   (C9_owner_mismatch_amended { address := "0xAb" } "0xab" []
      (okS "s")).2 (by decide) "s" rfl⟩

/-- C1 counterexample: starting from a freshly initialized manager whose
public chain is `CHAINP`, requesting the public chain and then ten other
distinct chains leaves the cache at capacity with the public chain
entry evicted — the public chain is not exempt from FIFO eviction; and
requesting the empty-string id first defeats the truthiness-guarded
eviction, pushing the cache one past its capacity. -/
theorem C1_public_chain_not_exempt_cex :
    stReadOnly.publicChainId = some "CHAINP"
    ∧ cacheGet
        (runGetChains stReadOnly env11 ("CHAINP" :: chainList10)).chainCache
        "CHAINP" = none
    ∧ (runGetChains stReadOnly env11 ("CHAINP" :: chainList10)).chainCache.length
        = MAX_CACHED_CHAINS
    ∧ MAX_CACHED_CHAINS
        < (runGetChains stReadOnly env11 ("" :: chainList10)).chainCache.length := by
  refine ⟨by decide, by decide, by decide, by decide⟩

/-- C2 counterexample: with a wallet connected and one ApplicationCache
entry present, reconnecting a different signer object that resolves the
same address notifies subscribers without clearing the cache — the
single notification carries exactly the pre-call ApplicationCache, whose
entry was created before the connectWallet call. -/
theorem C2_reconnect_observes_stale_cache_cex :
    (notifyStatesOf (connectWallet stFullApp sigA2 []).events).map
        MgrState.appCache = [stFullApp.appCache]
    ∧ stFullApp.appCache ≠ [] := by
  refine ⟨by decide, by decide⟩

/-- C5 counterexample: in FULL mode with the wallet chain `CHAINW` both
recorded as the wallet chain id and present in the ChainCache map,
disconnectWallet leaves the ChainCache entry for the wallet chain id in
place — it does not remove the wallet chain id from ChainCache. -/
theorem C5_wallet_chain_left_in_chain_cache_cex :
    stFullChainW.mode = ClientMode.FULL
    ∧ stFullChainW.walletChainId = some "CHAINW"
    ∧ (cacheGet stFullChainW.chainCache "CHAINW").isSome = true
    ∧ (cacheGet (disconnectWallet stFullChainW []).state.chainCache
        "CHAINW").isSome = true
    ∧ (disconnectWallet stFullChainW []).state.mode = ClientMode.READ_ONLY := by
  refine ⟨by decide, by decide, by decide, by decide, by decide⟩

theorem evictOldestChain_length (cache : List (String × Nat))
    (h : ∀ p ∈ cache, p.1 ≠ "") (hne : cache ≠ []) :
    (evictOldestChain cache).length + 1 = cache.length := by
  match cache with
  | [] => exact absurd rfl hne
  | (k, v) :: rest =>
    have hk : k ≠ "" := h (k, v) (List.mem_cons_self (k, v) rest)
    show (if k = "" then (k, v) :: rest else rest).length + 1
        = ((k, v) :: rest).length
    rw [if_neg hk]
    simp

theorem evictOldestChain_mem (cache : List (String × Nat)) :
    ∀ p ∈ evictOldestChain cache, p ∈ cache := by
  intro p hp
  match cache with
  | [] => exact hp
  | (k, v) :: rest =>
    by_cases hk : k = ""
    · have : evictOldestChain ((k, v) :: rest) = (k, v) :: rest := by
        show (if k = "" then (k, v) :: rest else rest) = (k, v) :: rest
        rw [if_pos hk]
      rw [this] at hp
      exact hp
    · have : evictOldestChain ((k, v) :: rest) = rest := by
        show (if k = "" then (k, v) :: rest else rest) = rest
        rw [if_neg hk]
      rw [this] at hp
      exact List.mem_cons_of_mem (k, v) hp

theorem getChain_cache_inv (s : MgrState) (i : String) (env : List StepRes)
    (hkeys : ∀ p ∈ s.chainCache, p.1 ≠ "")
    (hlen : s.chainCache.length ≤ MAX_CACHED_CHAINS)
    (hi : i ≠ "") :
    (∀ p ∈ (getChain s i env).state.chainCache, p.1 ≠ "")
    ∧ (getChain s i env).state.chainCache.length ≤ MAX_CACHED_CHAINS := by
  rcases hpc : s.publicClient with _ | pc
  · simp only [getChain, hpc]
    exact ⟨hkeys, hlen⟩
  · rcases hcg : cacheGet s.chainCache i with _ | h0
    · rcases hts : takeStep env with ⟨r, env2⟩
      rcases r with v | m
      · simp only [getChain, hpc, hcg, hts]
        by_cases hfull : MAX_CACHED_CHAINS ≤ s.chainCache.length
        · rw [if_pos hfull]
          have hne : s.chainCache ≠ [] := by
            intro hnil
            rw [hnil] at hfull
            simp [MAX_CACHED_CHAINS] at hfull
          have hlen2 := evictOldestChain_length s.chainCache hkeys hne
          constructor
          · intro p hp
            rcases List.mem_append.mp hp with h1 | h1
            · exact hkeys p (evictOldestChain_mem s.chainCache p h1)
            · rcases List.mem_singleton.mp h1 with rfl
              exact hi
          · have heq : s.chainCache.length = MAX_CACHED_CHAINS :=
              Nat.le_antisymm hlen hfull
            simp only [List.length_append, List.length_singleton]
            omega
        · rw [if_neg hfull]
          constructor
          · intro p hp
            rcases List.mem_append.mp hp with h1 | h1
            · exact hkeys p h1
            · rcases List.mem_singleton.mp h1 with rfl
              exact hi
          · simp only [List.length_append, List.length_singleton]
            omega
      · simp only [getChain, hpc, hcg, hts]
        exact ⟨hkeys, hlen⟩
    · simp only [getChain, hpc, hcg]
      exact ⟨hkeys, hlen⟩

theorem runGetChains_cache_inv (ids : List String) :
    ∀ (s : MgrState) (env : List StepRes),
      (∀ p ∈ s.chainCache, p.1 ≠ "") →
      s.chainCache.length ≤ MAX_CACHED_CHAINS →
      (∀ i ∈ ids, i ≠ "") →
      (∀ p ∈ (runGetChains s env ids).chainCache, p.1 ≠ "")
      ∧ (runGetChains s env ids).chainCache.length ≤ MAX_CACHED_CHAINS := by
  induction ids with
  | nil => intro s env hk hl _; exact ⟨hk, hl⟩
  | cons i rest ih =>
    intro s env hk hl hids
    have hstep := getChain_cache_inv s i env hk hl
      (hids i (List.mem_cons_self i rest))
    exact ih (getChain s i env).state (getChain s i env).env hstep.1 hstep.2
      (fun j hj => hids j (List.mem_cons_of_mem i hj))

/-- C1 amended: for every sequence of getChain(id) calls with nonempty
chain ids after a successful initializeReadOnly(), the ChainCache size
never exceeds the configured capacity (10); an empty-string id defeats
the truthiness-guarded eviction and can push the size past the bound,
and the public chain id is NOT exempt from FIFO eviction — its entry,
like any other, can be evicted and need not be present. -/
theorem C1_cache_bound_amended :
    ∀ (s : MgrState) (env : List StepRes) (ids : List String),
      (∀ p ∈ s.chainCache, p.1 ≠ "") →
      s.chainCache.length ≤ MAX_CACHED_CHAINS →
      (∀ i ∈ ids, i ≠ "") →
      (runGetChains s env ids).chainCache.length ≤ MAX_CACHED_CHAINS := by
  intro s env ids hk hl hids
  exact (runGetChains_cache_inv ids s env hk hl hids).2

/-- C1 witness: eleven distinct nonempty requests from a fresh
READ_ONLY state keep the cache within its capacity. -/
theorem C1_cache_bound_amended_witness :
    (runGetChains stReadOnly env11 ("CHAINP" :: chainList10)).chainCache.length
      ≤ MAX_CACHED_CHAINS :=
  C1_cache_bound_amended stReadOnly env11 ("CHAINP" :: chainList10)
    (by decide) (by decide) (by decide)

theorem connCatch_state (s : MgrState) (env : List StepRes)
    (evs : List Event) (m : String) :
    (connCatch s env evs m).state = s := rfl

theorem connSteps_frame (s : MgrState) (g : Signer) (owner : String)
    (evs : List Event) (env : List StepRes) :
    (connSteps s g owner evs env).state.publicChainId = s.publicChainId
    ∧ (connSteps s g owner evs env).state.publicClient = s.publicClient
    ∧ (connSteps s g owner evs env).state.publicWallet = s.publicWallet
    ∧ (connSteps s g owner evs env).state.publicAddress = s.publicAddress
    ∧ ((connSteps s g owner evs env).state.mode = s.mode
        ∨ (connSteps s g owner evs env).state.mode = ClientMode.FULL) := by
  unfold connSteps
  repeat' split
  all_goals simp [connCatch, invalidateAppCache]

theorem connBody_frame (s : MgrState) (g : Signer) (evs : List Event)
    (env : List StepRes) :
    (connBody s g evs env).state.publicChainId = s.publicChainId
    ∧ (connBody s g evs env).state.publicClient = s.publicClient
    ∧ (connBody s g evs env).state.publicWallet = s.publicWallet
    ∧ (connBody s g evs env).state.publicAddress = s.publicAddress
    ∧ ((connBody s g evs env).state.mode = s.mode
        ∨ (connBody s g evs env).state.mode = ClientMode.FULL) := by
  by_cases hsame : connSameCheck s g = true
  · by_cases hch : s.walletSigner ≠ some g
    · simp [connBody, hsame, hch]
    · simp [connBody, hsame, hch]
  · rcases hmod : s.lineraModule with _ | mh
    · simp [connBody, hsame, hmod, connCatch]
    · rcases hfc : s.faucet with _ | fh
      · rcases hts : takeStep env with ⟨r, env2⟩
        rcases r with v | m
        · rcases hts2 : takeStep env2 with ⟨r2, env3⟩
          rcases r2 with v2 | m2
          · simp only [connBody, hsame, Bool.false_eq_true, if_false, hmod,
              hfc, hts, hts2]
            exact ⟨(connSteps_frame _ _ _ _ _).1,
              (connSteps_frame _ _ _ _ _).2.1,
              (connSteps_frame _ _ _ _ _).2.2.1,
              (connSteps_frame _ _ _ _ _).2.2.2.1,
              (connSteps_frame _ _ _ _ _).2.2.2.2⟩
          · simp [connBody, hsame, hmod, hfc, hts, hts2, connCatch]
        · simp [connBody, hsame, hmod, hfc, hts, connCatch]
      · simp only [connBody, hsame, Bool.false_eq_true, if_false, hmod, hfc]
        exact ⟨(connSteps_frame _ _ _ _ _).1,
          (connSteps_frame _ _ _ _ _).2.1,
          (connSteps_frame _ _ _ _ _).2.2.1,
          (connSteps_frame _ _ _ _ _).2.2.2.1,
          (connSteps_frame _ _ _ _ _).2.2.2.2⟩

theorem connectWallet_stable (s : MgrState) (g : Signer) (env : List StepRes)
    (h : s.mode ≠ ClientMode.UNINITIALIZED) :
    (connectWallet s g env).state.publicChainId = s.publicChainId
    ∧ (connectWallet s g env).state.mode ≠ ClientMode.UNINITIALIZED := by
  unfold connectWallet
  rw [if_neg h]
  refine ⟨(connBody_frame s g [] env).1, ?_⟩
  rcases (connBody_frame s g [] env).2.2.2.2 with hm | hm
  · rw [hm]; exact h
  · rw [hm]; intro hc; cases hc

theorem disconnectWallet_stable (s : MgrState) (env : List StepRes)
    (h : s.mode ≠ ClientMode.UNINITIALIZED) :
    (disconnectWallet s env).state.publicChainId = s.publicChainId
    ∧ (disconnectWallet s env).state.mode ≠ ClientMode.UNINITIALIZED := by
  unfold disconnectWallet
  split
  · exact ⟨rfl, h⟩
  · refine ⟨rfl, ?_⟩
    intro hc
    cases hc

/-- C3: for all sequences of connectWallet / disconnectWallet /
switchWallet calls, successful or failing, performed after the first
successful initializeReadOnly() (mode is no longer UNINITIALIZED), the
public chain id returned by getState() never changes. -/
theorem C3_public_chain_stability :
    ∀ (ops : List WOp) (s : MgrState),
      s.mode ≠ ClientMode.UNINITIALIZED →
      (getState (runWOps s ops)).publicChainId = (getState s).publicChainId := by
  intro ops
  induction ops with
  | nil => intro s _; rfl
  | cons o rest ih =>
    intro s h
    have hstep : (runWOp s o).publicChainId = s.publicChainId
        ∧ (runWOp s o).mode ≠ ClientMode.UNINITIALIZED := by
      cases o with
      | conn g env => exact connectWallet_stable s g env h
      | disc => exact disconnectWallet_stable s [] h
      | sw g env => exact connectWallet_stable s g env h
    calc (getState (runWOps (runWOp s o) rest)).publicChainId
        = (getState (runWOp s o)).publicChainId := ih (runWOp s o) hstep.2
      _ = (getState s).publicChainId := by
          simp [getState, hstep.1]

/-- C3 witness: a concrete connect / disconnect / reconnect sequence
from the initialized state leaves the public chain id unchanged. -/
theorem C3_public_chain_stability_witness :
    (getState (runWOps stReadOnly
        [WOp.conn sigA envConnOk, WOp.disc, WOp.sw sigA2 []])).publicChainId
      = (getState stReadOnly).publicChainId :=
  C3_public_chain_stability
    [WOp.conn sigA envConnOk, WOp.disc, WOp.sw sigA2 []] stReadOnly
    (by decide)

/-- C5 amended: when mode is FULL, disconnectWallet() frees the
wallet-chain engine resources, clears the dedicated cached wallet-chain
handle (it does not remove the wallet chain id from the ChainCache map),
clears all wallet identity fields so getState().walletChainId is
undefined, invalidates the ApplicationCache, and sets mode to READ_ONLY,
while the public chain fields and the ChainCache — in particular the
public chain entry — are left untouched; when mode is not FULL it is a
no-op. -/
theorem C5_disconnect_amended :
    ∀ (s : MgrState) (env : List StepRes),
      (s.mode = ClientMode.FULL →
        (disconnectWallet s env).state.walletClient = none
        ∧ (disconnectWallet s env).state.walletWallet = none
        ∧ (disconnectWallet s env).state.walletSigner = none
        ∧ (disconnectWallet s env).state.walletAutosigner = none
        ∧ (disconnectWallet s env).state.walletChainId = none
        ∧ (disconnectWallet s env).state.walletAddress = none
        ∧ (getState (disconnectWallet s env).state).walletChainId = none
        ∧ (disconnectWallet s env).state.appCache = []
        ∧ (disconnectWallet s env).state.cachedWalletChain = none
        ∧ (disconnectWallet s env).state.mode = ClientMode.READ_ONLY
        ∧ (disconnectWallet s env).state.publicClient = s.publicClient
        ∧ (disconnectWallet s env).state.publicWallet = s.publicWallet
        ∧ (disconnectWallet s env).state.publicChainId = s.publicChainId
        ∧ (disconnectWallet s env).state.publicAddress = s.publicAddress
        ∧ (disconnectWallet s env).state.chainCache = s.chainCache
        ∧ (disconnectWallet s env).events
            = freeOpt s.walletClient ++ freeOpt s.walletWallet
              ++ [Event.notify (disconnectWallet s env).state none])
      ∧ (s.mode ≠ ClientMode.FULL →
          disconnectWallet s env
            = { result := Except.ok (), state := s, events := [], env := env }) := by
  intro s env
  constructor
  · intro hfull
    unfold disconnectWallet
    rw [if_neg (by simp [hfull])]
    simp [invalidateAppCache, getState, orUndefined]
  · intro hnot
    unfold disconnectWallet
    rw [if_pos hnot]

/-- C5 witness: disconnecting the concrete FULL state. -/
theorem C5_disconnect_amended_witness :
    (disconnectWallet stFull []).state.walletChainId = none
    ∧ (disconnectWallet stFull []).state.publicChainId = stFull.publicChainId :=
  ⟨((C5_disconnect_amended stFull []).1 (by decide)).2.2.2.2.1,
   ((C5_disconnect_amended stFull []).1 (by decide)).2.2.2.2.2.2.2.2.2.2.2.2.1⟩

theorem notify_not_in_freeOpt (st : MgrState) (err : Option String)
    (x : Option Nat) : Event.notify st err ∉ freeOpt x := by
  cases x <;> simp [freeOpt]

theorem connCatch_notify_none {s1 : MgrState} {env1 : List StepRes}
    {evs1 : List Event} {m : String} {st : MgrState}
    (hv : Event.notify st none ∉ evs1) :
    Event.notify st none ∉ (connCatch s1 env1 evs1 m).events := by
  intro h
  rcases List.mem_append.mp h with h1 | h1
  · exact hv h1
  · have h2 := List.mem_singleton.mp h1
    exact Option.noConfusion (Event.notify.inj h2).2

theorem connSteps_notify_none (s : MgrState) (g : Signer) (owner : String)
    (evs : List Event) (env : List StepRes) (st : MgrState)
    (hv : ∀ (st2 : MgrState) (err2 : Option String),
      Event.notify st2 err2 ∉ evs) :
    Event.notify st none ∈ (connSteps s g owner evs env).events →
    st.appCache = [] ∧ st.mode = ClientMode.FULL := by
  have hclaim : ∀ (o c : String),
      Event.notify st none ∉ evs ++ [Event.claim o c] := by
    intro o c h
    rcases List.mem_append.mp h with h1 | h1
    · exact hv st none h1
    · simp at h1
  unfold connSteps
  repeat' split
  all_goals intro hmem
  all_goals
    first
    | exact absurd hmem (connCatch_notify_none (hv st none))
    | exact absurd hmem (connCatch_notify_none (hclaim _ _))
    | (rcases List.mem_append.mp hmem with h1 | h1
       · exact absurd h1 (hclaim _ _)
       · have h2 := List.mem_singleton.mp h1
         rcases Event.notify.inj h2 with ⟨rfl, -⟩
         exact ⟨rfl, rfl⟩)

theorem connBody_notify_none (s : MgrState) (g : Signer) (evs0 : List Event)
    (env : List StepRes) (st : MgrState)
    (hv : ∀ (st2 : MgrState) (err2 : Option String),
      Event.notify st2 err2 ∉ evs0)
    (hsame : connSameCheck s g = false) :
    Event.notify st none ∈ (connBody s g evs0 env).events →
    st.appCache = [] ∧ st.mode = ClientMode.FULL := by
  have hv2 : ∀ (st2 : MgrState) (err2 : Option String),
      Event.notify st2 err2
        ∉ evs0 ++ freeOpt s.walletClient ++ freeOpt s.walletWallet := by
    intro st2 err2 hmem
    rcases List.mem_append.mp hmem with h1 | h1
    · rcases List.mem_append.mp h1 with h2 | h2
      · exact hv st2 err2 h2
      · exact notify_not_in_freeOpt st2 err2 _ h2
    · exact notify_not_in_freeOpt st2 err2 _ h1
  unfold connBody
  rw [if_neg (by simp [hsame])]
  dsimp only
  repeat' split
  all_goals intro hmem
  all_goals
    first
    | exact absurd hmem (connCatch_notify_none (hv2 st none))
    | exact connSteps_notify_none _ g g.addr _ _ st
        (fun st2 err2 => hv2 st2 err2) hmem

/-- C2 amended: the ApplicationCache is cleared synchronously before the
mode flip and the state-change notification in disconnectWallet and in
the wallet-switch path of connectWallet: every notification these paths
deliver carries an empty ApplicationCache (and, for connectWallet, FULL
mode), so such a subscriber never observes an entry created before the
call.  The amendment excludes the same-wallet reconnection path of
connectWallet, which notifies (when the signer instance changed) without
clearing the cache, and error-path notifications, which carry an error. -/
theorem C2_invalidation_order_amended :
    (∀ (s : MgrState) (env : List StepRes) (st : MgrState)
        (err : Option String),
        Event.notify st err ∈ (disconnectWallet s env).events →
        st.appCache = [])
    ∧ (∀ (s : MgrState) (g : Signer) (env : List StepRes) (st : MgrState),
        s.mode ≠ ClientMode.UNINITIALIZED →
        connSameCheck s g = false →
        Event.notify st none ∈ (connectWallet s g env).events →
        st.appCache = [] ∧ st.mode = ClientMode.FULL) := by
  constructor
  · intro s env st err hmem
    unfold disconnectWallet at hmem
    split at hmem
    · simp at hmem
    · simp only [invalidateAppCache, List.mem_append,
        List.mem_singleton, Event.notify.injEq] at hmem
      rcases hmem with (hmem | hmem) | hmem
      · exact absurd hmem (notify_not_in_freeOpt st err _)
      · exact absurd hmem (notify_not_in_freeOpt st err _)
      · rcases hmem with ⟨rfl, _⟩
        rfl
  · intro s g env st hmode hsame hmem
    unfold connectWallet at hmem
    rw [if_neg hmode] at hmem
    exact connBody_notify_none s g [] env st (by simp) hsame hmem

/-- C2 witness: the single notification of a concrete disconnect carries
an empty ApplicationCache. -/
theorem C2_invalidation_order_amended_witness :
    (disconnectWallet stFullApp []).state.appCache = [] :=
  C2_invalidation_order_amended.1 stFullApp []
    (disconnectWallet stFullApp []).state none (by decide)

theorem claimsOf_append (a b : List Event) :
    claimsOf (a ++ b) = claimsOf a ++ claimsOf b := by
  simp [claimsOf, List.filter_append]

theorem claimsOf_freeOpt (x : Option Nat) : claimsOf (freeOpt x) = [] := by
  cases x <;> rfl

theorem connSteps_ok (s : MgrState) (g : Signer) (owner : String)
    (evs : List Event) (env : List StepRes) :
    (connSteps s g owner evs env).result = Except.ok () →
    (connSteps s g owner evs env).state.walletSigner = some g
    ∧ (connSteps s g owner evs env).state.walletAddress = some owner
    ∧ (connSteps s g owner evs env).state.walletClient.isSome = true
    ∧ (connSteps s g owner evs env).state.mode = ClientMode.FULL
    ∧ ∃ cid, (connSteps s g owner evs env).state.walletChainId = some cid
        ∧ (connSteps s g owner evs env).events
          = evs ++ [Event.claim owner cid]
            ++ [Event.notify (connSteps s g owner evs env).state none] := by
  unfold connSteps
  repeat' split
  all_goals intro hok
  all_goals
    first
    | exact ⟨rfl, rfl, rfl, rfl, _, rfl, rfl⟩
    | simp [connCatch] at hok

theorem connBody_ok (s : MgrState) (g : Signer) (evs0 : List Event)
    (env : List StepRes) (hsame : connSameCheck s g = false) :
    (connBody s g evs0 env).result = Except.ok () →
    (connBody s g evs0 env).state.walletSigner = some g
    ∧ (connBody s g evs0 env).state.walletAddress = some g.addr
    ∧ (connBody s g evs0 env).state.walletClient.isSome = true
    ∧ (connBody s g evs0 env).state.mode = ClientMode.FULL
    ∧ ∃ cid, (connBody s g evs0 env).state.walletChainId = some cid
        ∧ (connBody s g evs0 env).events
          = evs0 ++ freeOpt s.walletClient ++ freeOpt s.walletWallet
            ++ [Event.claim g.addr cid]
            ++ [Event.notify (connBody s g evs0 env).state none] := by
  unfold connBody
  rw [if_neg (by simp [hsame])]
  dsimp only
  repeat' split
  all_goals intro hok
  all_goals
    first
    | exact connSteps_ok _ g g.addr _ _ hok
    | simp [connCatch] at hok

theorem connectWallet_not_uninit (s : MgrState) (g : Signer)
    (env : List StepRes) (h : s.mode ≠ ClientMode.UNINITIALIZED) :
    connectWallet s g env = connBody s g [] env := by
  unfold connectWallet
  rw [if_neg h]

theorem connectWallet_ok (s : MgrState) (g : Signer) (env : List StepRes)
    (hmode : s.mode ≠ ClientMode.UNINITIALIZED)
    (hsame : connSameCheck s g = false)
    (hok : (connectWallet s g env).result = Except.ok ()) :
    (connectWallet s g env).state.walletSigner = some g
    ∧ (connectWallet s g env).state.walletAddress = some g.addr
    ∧ (connectWallet s g env).state.walletClient.isSome = true
    ∧ (connectWallet s g env).state.mode = ClientMode.FULL
    ∧ ∃ cid, (connectWallet s g env).state.walletChainId = some cid
        ∧ (connectWallet s g env).events
          = freeOpt s.walletClient ++ freeOpt s.walletWallet
            ++ [Event.claim g.addr cid]
            ++ [Event.notify (connectWallet s g env).state none] := by
  rw [connectWallet_not_uninit s g env hmode] at hok ⊢
  have h := connBody_ok s g [] env hsame hok
  simpa using h

/-- C4: from an initialized state with no matching wallet, a successful
connectWallet performs exactly one faucet chain claim; a second
connectWallet whose signer resolves a case-insensitively equal address
performs no claim and no resource release, is a strict no-op (no state
change, no notification) when the signer reference is unchanged, and
when the signer is a different object instance it only updates the
stored signer reference (mode is already FULL) and emits exactly one
notification.  The wallet chain id claimed by the first call is
hypothesised nonempty: the source guards the same-wallet branch with
the truthiness of `this.walletChainId`, so an empty-string id would not
count as an existing wallet chain. -/
theorem C4_idempotent_reconnect :
    ∀ (s0 : MgrState) (g1 g2 : Signer) (env1 env2 : List StepRes),
      s0.mode ≠ ClientMode.UNINITIALIZED →
      connSameCheck s0 g1 = false →
      (connectWallet s0 g1 env1).result = Except.ok () →
      (connectWallet s0 g1 env1).state.walletChainId ≠ some "" →
      strLower g2.addr = strLower g1.addr →
      ((claimsOf (connectWallet s0 g1 env1).events).length = 1
       ∧ claimsOf
           (connectWallet (connectWallet s0 g1 env1).state g2 env2).events
           = []
       ∧ freesOf
           (connectWallet (connectWallet s0 g1 env1).state g2 env2).events
           = []
       ∧ (g2 = g1 →
            connectWallet (connectWallet s0 g1 env1).state g2 env2
              = { result := Except.ok ()
                  state := (connectWallet s0 g1 env1).state
                  events := [], env := env2 })
       ∧ (g2 ≠ g1 →
            connectWallet (connectWallet s0 g1 env1).state g2 env2
              = { result := Except.ok ()
                  state := { (connectWallet s0 g1 env1).state with
                             walletSigner := some g2
                             mode := ClientMode.FULL }
                  events := [Event.notify
                    { (connectWallet s0 g1 env1).state with
                      walletSigner := some g2, mode := ClientMode.FULL } none]
                  env := env2 })
       ∧ (connectWallet s0 g1 env1).state.mode = ClientMode.FULL) := by
  intro s0 g1 g2 env1 env2 hmode hsame hok hne haddr
  obtain ⟨hsig, haddr1, hcli, hm, cid, hcid, hevents⟩ :=
    connectWallet_ok s0 g1 env1 hmode hsame hok
  have hcne : cid ≠ "" := by
    intro h
    rw [h] at hcid
    exact hne hcid
  have hsame2 :
      connSameCheck (connectWallet s0 g1 env1).state g2 = true := by
    unfold connSameCheck
    rw [haddr1, hcid, hcli]
    simp [haddr, hcne]
  have hsecond : connectWallet (connectWallet s0 g1 env1).state g2 env2
      = if (connectWallet s0 g1 env1).state.walletSigner ≠ some g2 then
          { result := Except.ok ()
            state := { (connectWallet s0 g1 env1).state with
                       walletSigner := some g2, mode := ClientMode.FULL }
            events := [Event.notify
              { (connectWallet s0 g1 env1).state with
                walletSigner := some g2, mode := ClientMode.FULL } none]
            env := env2 }
        else
          { result := Except.ok ()
            state := (connectWallet s0 g1 env1).state
            events := [], env := env2 } := by
    rw [connectWallet_not_uninit (connectWallet s0 g1 env1).state g2 env2
      (by rw [hm]; intro hc; cases hc)]
    unfold connBody
    rw [if_pos hsame2]
    rfl
  refine ⟨?_, ?_, ?_, ?_, ?_, hm⟩
  · rw [hevents, claimsOf_append, claimsOf_append, claimsOf_append,
      claimsOf_freeOpt s0.walletClient, claimsOf_freeOpt s0.walletWallet]
    rfl
  · rw [hsecond]
    by_cases hch : (connectWallet s0 g1 env1).state.walletSigner ≠ some g2
    · rw [if_pos hch]
      simp [claimsOf]
    · rw [if_neg hch]
      simp [claimsOf]
  · rw [hsecond]
    by_cases hch : (connectWallet s0 g1 env1).state.walletSigner ≠ some g2
    · rw [if_pos hch]
      simp [freesOf]
    · rw [if_neg hch]
      simp [freesOf]
  · intro hg
    rw [hsecond, if_neg]
    intro hne
    rw [hsig, hg] at hne
    exact hne rfl
  · intro hg
    rw [hsecond, if_pos]
    rw [hsig]
    intro heq
    have := Option.some.inj heq
    exact hg (this.symm)

/-- C4 witness: a successful connect of `sigA` followed by a reconnect
of the distinct object `sigA2` resolving the same address. -/
theorem C4_idempotent_reconnect_witness :
    (claimsOf (connectWallet stReadOnly sigA envConnOk).events).length = 1
    ∧ claimsOf
        (connectWallet (connectWallet stReadOnly sigA envConnOk).state
          sigA2 []).events = [] := by
  have h := C4_idempotent_reconnect stReadOnly sigA sigA2 envConnOk []
    (by decide) (by decide) (by decide) (by decide) (by decide)
  exact ⟨h.1, h.2.1⟩

/-- Fields of the session invariant that queries must not disturb. -/
def frameEq (t s : MgrState) : Prop :=
  t.publicClient = s.publicClient
  ∧ t.walletClient = s.walletClient
  ∧ t.walletChainId = s.walletChainId
  ∧ t.mode = s.mode

theorem frameEq_trans {a b c : MgrState} (h1 : frameEq a b)
    (h2 : frameEq b c) : frameEq a c :=
  ⟨h1.1.trans h2.1, h1.2.1.trans h2.2.1, h1.2.2.1.trans h2.2.2.1,
   h1.2.2.2.trans h2.2.2.2⟩

theorem getChain_frame (s : MgrState) (i : String) (env : List StepRes) :
    frameEq (getChain s i env).state s := by
  unfold getChain
  repeat' split
  all_goals exact ⟨rfl, rfl, rfl, rfl⟩

theorem getWalletChain_frame (s : MgrState) (env : List StepRes) :
    frameEq (getWalletChain s env).state s := by
  unfold getWalletChain
  repeat' split
  all_goals exact ⟨rfl, rfl, rfl, rfl⟩

theorem getApplication_frame (s : MgrState) (a : String)
    (env : List StepRes) :
    frameEq (getApplication s a env).state s := by
  unfold getApplication
  dsimp only
  repeat' split
  all_goals
    first
    | exact ⟨rfl, rfl, rfl, rfl⟩
    | exact getChain_frame _ _ _
    | exact frameEq_trans ⟨rfl, rfl, rfl, rfl⟩ (getChain_frame _ _ _)
    | exact frameEq_trans (getWalletChain_frame _ _)
        (frameEq_trans ⟨rfl, rfl, rfl, rfl⟩ (getChain_frame _ _ _))

theorem initReadOnly_frame (s : MgrState) (env : List StepRes) :
    (initReadOnly s env).state.walletClient = s.walletClient
    ∧ (initReadOnly s env).state.walletChainId = s.walletChainId := by
  unfold initReadOnly
  repeat' split
  all_goals simp [initCatch]

theorem initReadOnly_ok (s : MgrState) (env : List StepRes) :
    (initReadOnly s env).result = Except.ok () →
    (s.mode ≠ ClientMode.UNINITIALIZED ∧ (initReadOnly s env).state = s)
    ∨ (s.mode = ClientMode.UNINITIALIZED
       ∧ (initReadOnly s env).state.mode = ClientMode.READ_ONLY
       ∧ (initReadOnly s env).state.publicClient.isSome = true) := by
  by_cases hmode : s.mode ≠ ClientMode.UNINITIALIZED
  · intro _
    refine Or.inl ⟨hmode, ?_⟩
    unfold initReadOnly
    rw [if_pos hmode]
  · rw [not_not] at hmode
    unfold initReadOnly
    rw [if_neg (by rw [hmode]; intro h; exact h rfl)]
    repeat' split
    all_goals intro hok
    all_goals
      first
      | exact Or.inr ⟨hmode, rfl, rfl⟩
      | simp [initCatch] at hok

theorem initReadOnly_inv (s : MgrState) (env : List StepRes)
    (hinv : SessionInv s)
    (hok : (initReadOnly s env).result = Except.ok ()) :
    SessionInv (initReadOnly s env).state := by
  rcases initReadOnly_ok s env hok with ⟨_, heq⟩ | ⟨hu, hro, hpc⟩
  · rw [heq]
    exact hinv
  · obtain ⟨hf1, hf2⟩ := initReadOnly_frame s env
    have hwc : s.walletClient = none := by
      by_contra hne
      have := hinv.2 (Or.inl hne)
      rw [hu] at this
      cases this
    have hwi : s.walletChainId = none := by
      by_contra hne
      have := hinv.2 (Or.inr hne)
      rw [hu] at this
      cases this
    constructor
    · intro h0
      rw [h0] at hpc
      cases hpc
    · intro hw
      rcases hw with hw | hw
      · rw [hf1, hwc] at hw
        exact absurd rfl hw
      · rw [hf2, hwi] at hw
        exact absurd rfl hw

theorem connBody_same (s : MgrState) (g : Signer) (evs : List Event)
    (env : List StepRes) (hsame : connSameCheck s g = true) :
    connBody s g evs env
      = if s.walletSigner ≠ some g then
          { result := Except.ok ()
            state := { s with walletSigner := some g, mode := ClientMode.FULL }
            events := evs ++ [Event.notify
              { s with walletSigner := some g, mode := ClientMode.FULL } none]
            env := env }
        else { result := Except.ok (), state := s, events := evs, env := env } := by
  unfold connBody
  rw [if_pos hsame]

theorem connBody_inv (s : MgrState) (g : Signer) (evs : List Event)
    (env : List StepRes) (hmode : s.mode ≠ ClientMode.UNINITIALIZED)
    (hinv : SessionInv s)
    (hok : (connBody s g evs env).result = Except.ok ()) :
    SessionInv (connBody s g evs env).state := by
  have hpc : s.publicClient ≠ none := fun h => hmode (hinv.1 h)
  by_cases hsame : connSameCheck s g = true
  · rw [connBody_same s g evs env hsame]
    by_cases hch : s.walletSigner ≠ some g
    · rw [if_pos hch]
      exact ⟨fun h0 => absurd h0 hpc, fun _ => rfl⟩
    · rw [if_neg hch]
      exact hinv
  · have hsame2 : connSameCheck s g = false := by
      simpa using hsame
    obtain ⟨_, _, _, hm, _⟩ := connBody_ok s g evs env hsame2 hok
    have hpcf := (connBody_frame s g evs env).2.1
    constructor
    · intro h0
      rw [hpcf] at h0
      exact absurd h0 hpc
    · intro _
      exact hm

theorem connectWallet_uninit (s : MgrState) (g : Signer)
    (env : List StepRes) (h : s.mode = ClientMode.UNINITIALIZED) :
    connectWallet s g env
      = match (initReadOnly s env).result with
        | Except.error m =>
          { result := Except.error ("Failed to connect wallet: " ++ m)
            state := (initReadOnly s env).state
            events := (initReadOnly s env).events
              ++ [Event.notify (initReadOnly s env).state (some m)]
            env := (initReadOnly s env).env }
        | Except.ok _ =>
          connBody (initReadOnly s env).state g (initReadOnly s env).events
            (initReadOnly s env).env := by
  unfold connectWallet
  rw [if_pos h]

theorem connectWallet_inv (s : MgrState) (g : Signer) (env : List StepRes)
    (hinv : SessionInv s)
    (hok : (connectWallet s g env).result = Except.ok ()) :
    SessionInv (connectWallet s g env).state := by
  by_cases hmode : s.mode = ClientMode.UNINITIALIZED
  · rw [connectWallet_uninit s g env hmode] at hok ⊢
    rcases hi : (initReadOnly s env).result with m | u
    · simp only [hi] at hok
      simp at hok
    · cases u
      simp only [hi] at hok ⊢
      have hinv2 := initReadOnly_inv s env hinv hi
      rcases initReadOnly_ok s env hi with ⟨hm1, _⟩ | ⟨_, hm2, _⟩
      · exact absurd hmode hm1
      · exact connBody_inv (initReadOnly s env).state g
          (initReadOnly s env).events (initReadOnly s env).env
          (by rw [hm2]; intro hc; cases hc) hinv2 hok
  · rw [connectWallet_not_uninit s g env hmode] at hok ⊢
    exact connBody_inv s g [] env hmode hinv hok

theorem disconnectWallet_inv (s : MgrState) (env : List StepRes)
    (hinv : SessionInv s) :
    SessionInv (disconnectWallet s env).state := by
  by_cases hfull : s.mode = ClientMode.FULL
  · unfold disconnectWallet
    rw [if_neg (by simp [hfull])]
    constructor
    · intro h0
      have : s.publicClient ≠ none := by
        intro hn
        rw [hinv.1 hn] at hfull
        cases hfull
      exact absurd h0 this
    · intro hw
      rcases hw with hw | hw <;> exact absurd rfl hw
  · unfold disconnectWallet
    rw [if_pos hfull]
    exact hinv

theorem getApplication_inv (s : MgrState) (a : String) (env : List StepRes)
    (hinv : SessionInv s) :
    SessionInv (getApplication s a env).state := by
  obtain ⟨h1, h2, h3, h4⟩ := getApplication_frame s a env
  constructor
  · intro h0
    rw [h1] at h0
    rw [h4]
    exact hinv.1 h0
  · intro hw
    rw [h4]
    rcases hw with hw | hw
    · rw [h2] at hw
      exact hinv.2 (Or.inl hw)
    · rw [h3] at hw
      exact hinv.2 (Or.inr hw)

theorem destroy_inv (s : MgrState) (env : List StepRes) :
    SessionInv (destroy s env).state := by
  constructor
  · intro _
    rfl
  · intro hw
    rcases hw with hw | hw <;> exact absurd rfl hw

/-- C6 amended: in every state reachable by a sequence of the public
operations (initializeReadOnly, connectWallet, disconnectWallet,
switchWallet, getApplication, destroy) in which each operation completes
without throwing, the session invariant holds: a non-null wallet context
(wallet chain id or wallet client) implies FULL mode, and a null public
context implies UNINITIALIZED mode.  The amendment drops states reached
through failing operations: a connectWallet that throws after its chain
claim leaves the wallet chain id set while mode remains READ_ONLY. -/
theorem C6_invariant_amended :
    ∀ s : MgrState, SuccessReachable s → SessionInv s := by
  intro s h
  induction h with
  | start url =>
    exact ⟨fun _ => rfl,
      fun hw => by rcases hw with hw | hw <;> exact absurd rfl hw⟩
  | initRO s env hr hok ih => exact initReadOnly_inv s env ih hok
  | conn s g env hr hok ih => exact connectWallet_inv s g env ih hok
  | sw s g env hr hok ih => exact connectWallet_inv s g env ih hok
  | disc s env hr ih => exact disconnectWallet_inv s env ih
  | getApp s a env hr ih => exact getApplication_inv s a env ih
  | dest s env hr ih => exact destroy_inv s env

/-- C6 witness: the invariant at the concrete FULL state reached by a
successful initialize-then-connect run. -/
theorem C6_invariant_amended_witness : SessionInv stFull :=
  C6_invariant_amended stFull
    (SuccessReachable.conn stReadOnly sigA envConnOk
      (SuccessReachable.initRO (initialState "http://localhost:8080")
        envInitOk (SuccessReachable.start "http://localhost:8080")
        (by decide))
      (by decide))

/-- C6 counterexample: a connectWallet call that fails at the wallet
client construction step — after the wallet chain claim succeeded —
leaves the wallet chain id set while the mode remains READ_ONLY, so the
claimed invariant (wallet context non-null implies FULL) is violated in
a state reached by a failing operation. -/
theorem C6_failed_connect_breaks_invariant_cex :
    stBadConn.walletChainId = some "CHAINW"
    ∧ stBadConn.mode = ClientMode.READ_ONLY
    ∧ ¬ SessionInv stBadConn := by
  refine ⟨by decide, by decide, by decide⟩

theorem connSteps_error (s : MgrState) (g : Signer) (owner : String)
    (evs : List Event) (env : List StepRes) :
    ∀ e, (connSteps s g owner evs env).result = Except.error e →
      ∃ st m, e = "Failed to connect wallet: " ++ m
        ∧ Event.notify st (some m) ∈ (connSteps s g owner evs env).events := by
  unfold connSteps
  repeat' split
  all_goals intro e herr
  all_goals
    first
    | exact ⟨_, _, (Except.error.inj herr).symm,
        List.mem_append_right _ (List.mem_singleton_self _)⟩
    | simp at herr

theorem connBody_error (s : MgrState) (g : Signer) (evs0 : List Event)
    (env : List StepRes) :
    ∀ e, (connBody s g evs0 env).result = Except.error e →
      ∃ st m, e = "Failed to connect wallet: " ++ m
        ∧ Event.notify st (some m) ∈ (connBody s g evs0 env).events := by
  unfold connBody
  dsimp only
  repeat' split
  all_goals intro e herr
  all_goals
    first
    | exact ⟨_, _, (Except.error.inj herr).symm,
        List.mem_append_right _ (List.mem_singleton_self _)⟩
    | exact connSteps_error _ g g.addr _ _ e herr
    | simp at herr

theorem connectWallet_error (s : MgrState) (g : Signer)
    (env : List StepRes) :
    ∀ e, (connectWallet s g env).result = Except.error e →
      ∃ st m, e = "Failed to connect wallet: " ++ m
        ∧ Event.notify st (some m) ∈ (connectWallet s g env).events := by
  by_cases hmode : s.mode = ClientMode.UNINITIALIZED
  · rw [connectWallet_uninit s g env hmode]
    rcases hr : (initReadOnly s env).result with m | u
    · simp only [hr]
      intro e herr
      exact ⟨_, _, (Except.error.inj herr).symm,
        List.mem_append_right _ (List.mem_singleton_self _)⟩
    · cases u
      simp only [hr]
      exact connBody_error _ g _ _
  · rw [connectWallet_not_uninit s g env hmode]
    exact connBody_error s g [] env

/-- C8: the spec-modelled reinit() protocol.  First, its outcome (result
and final state) does not depend on whether the best-effort destroy step
throws — a destroy failure is swallowed, affecting only the recorded
release events.  Second, from FULL mode with a snapshotted wallet
signer, once the engine-reload / initializeReadOnly phase succeeds,
reinit() returns ok unconditionally and ends in the state of the
attempted connectWallet with the snapshotted signer: a failure of that
reconnection is not raised to the caller but is surfaced through the
error notification that connectWallet emits, which reinit() preserves
in its event trace. -/
theorem C8_reinit_recovery :
    (∀ (s : MgrState) (d1 d2 : StepRes) (env : List StepRes),
        (reinit s (d1 :: env)).result = (reinit s (d2 :: env)).result
        ∧ (reinit s (d1 :: env)).state = (reinit s (d2 :: env)).state)
    ∧ (∀ (s : MgrState) (g : Signer) (env : List StepRes),
        s.mode = ClientMode.FULL →
        s.walletSigner = some g →
        (initReadOnly (destroy s ((takeStep env).2)).state
            ((takeStep env).2)).result = Except.ok () →
        ((reinit s env).result = Except.ok ()
         ∧ (reinit s env).state
             = (connectWallet
                 (initReadOnly (destroy s ((takeStep env).2)).state
                   ((takeStep env).2)).state g
                 (initReadOnly (destroy s ((takeStep env).2)).state
                   ((takeStep env).2)).env).state
         ∧ (∀ e, (connectWallet
                 (initReadOnly (destroy s ((takeStep env).2)).state
                   ((takeStep env).2)).state g
                 (initReadOnly (destroy s ((takeStep env).2)).state
                   ((takeStep env).2)).env).result = Except.error e →
             ∃ st m, e = "Failed to connect wallet: " ++ m
               ∧ Event.notify st (some m) ∈ (reinit s env).events))) := by
  constructor
  · intro s d1 d2 env
    rcases hr : (initReadOnly (destroy s env).state env).result with m | u
    · cases d1 <;> cases d2 <;> simp [reinit, takeStep, hr]
    · cases u
      by_cases hm : s.mode = ClientMode.FULL
      · cases hsig : s.walletSigner with
        | none => cases d1 <;> cases d2 <;> simp [reinit, takeStep, hr, hm, hsig]
        | some g => cases d1 <;> cases d2 <;> simp [reinit, takeStep, hr, hm, hsig]
      · cases d1 <;> cases d2 <;> simp [reinit, takeStep, hr, hm]
  · intro s g env hm hsig hinit
    rcases hts : takeStep env with ⟨d, env1⟩
    simp only [hts] at hinit ⊢
    cases d with
    | ok v =>
      have hred : reinit s env
          = { result := Except.ok ()
              state := (connectWallet
                (initReadOnly (destroy s env1).state env1).state g
                (initReadOnly (destroy s env1).state env1).env).state
              events := (destroy s env1).events
                ++ (initReadOnly (destroy s env1).state env1).events
                ++ (connectWallet
                    (initReadOnly (destroy s env1).state env1).state g
                    (initReadOnly (destroy s env1).state env1).env).events
              env := (connectWallet
                (initReadOnly (destroy s env1).state env1).state g
                (initReadOnly (destroy s env1).state env1).env).env } := by
        simp [reinit, hts, hm, hsig, hinit]
      refine ⟨by rw [hred], by rw [hred], ?_⟩
      intro e herr
      obtain ⟨st, m, he, hmem⟩ := connectWallet_error
        (initReadOnly (destroy s env1).state env1).state g
        (initReadOnly (destroy s env1).state env1).env e herr
      refine ⟨st, m, he, ?_⟩
      rw [hred]
      exact List.mem_append_right _ hmem
    | fail m2 =>
      have hred : reinit s env
          = { result := Except.ok ()
              state := (connectWallet
                (initReadOnly (destroy s env1).state env1).state g
                (initReadOnly (destroy s env1).state env1).env).state
              events := (initReadOnly (destroy s env1).state env1).events
                ++ (connectWallet
                    (initReadOnly (destroy s env1).state env1).state g
                    (initReadOnly (destroy s env1).state env1).env).events
              env := (connectWallet
                (initReadOnly (destroy s env1).state env1).state g
                (initReadOnly (destroy s env1).state env1).env).env } := by
        simp [reinit, hts, hm, hsig, hinit]
      refine ⟨by rw [hred], by rw [hred], ?_⟩
      intro e herr
      obtain ⟨st, m, he, hmem⟩ := connectWallet_error
        (initReadOnly (destroy s env1).state env1).state g
        (initReadOnly (destroy s env1).state env1).env e herr
      refine ⟨st, m, he, ?_⟩
      rw [hred]
      exact List.mem_append_right _ hmem

/-- C8 witness: a concrete reinit from the FULL state whose initialize
phase succeeds returns ok. -/
theorem C8_reinit_recovery_witness :
    (reinit stFull (okS "" :: envInitOk)).result = Except.ok () :=
  (C8_reinit_recovery.2 stFull sigA (okS "" :: envInitOk)
    (by decide) (by decide) (by decide)).1

end LineraReact
